import Mathlib

/-!
To-Do service: ownership-scoped todo handlers, listing, auth middleware, error handler, register.

A shallow embedding of the Express handlers in
`backend/src/controllers/todoController.js`, `backend/src/controllers/authController.js`,
`backend/src/middleware/authMiddleware.js` and `backend/src/middleware/errorMiddleware.js`.

The document store is a list of documents in insertion order.  A handler is a function from
the store (and the request data it reads) to what it does (the response it sends, or the
failure it passes to `next`) and the store it leaves.
-/

namespace TodoApp

/-! ## Data model -/

/-- Document identifiers (`_id`, and the `user` reference of a todo) as the store holds them. -/
abbrev ObjectId := Nat

/-- Modelled from the spec: the Todo schema (`models/Todo.js` is not part of the sources):
identifier, title, optional description, status, owner reference and creation timestamp. -/
structure Todo where
  _id : ObjectId
  title : String
  description : Option String
  status : String
  user : ObjectId
  createdAt : Nat
deriving DecidableEq, Repr

/-- Modelled from the spec: the User schema (`models/User.js` is not part of the sources):
identifier, display name, email and the stored (hashed) password. -/
structure User where
  _id : ObjectId
  name : String
  email : String
  password : String
deriving DecidableEq, Repr

/-- The public fields of an account: what `.select('-password')` leaves, and what the
handlers serialise as `user`. -/
structure PublicUser where
  _id : ObjectId
  name : String
  email : String
deriving DecidableEq, Repr

/-- A JavaScript number as the listing code meets it: `NaN`, an infinity, or a finite double
with an integer value (`-0` is not told apart from `0`). -/
inductive JsNumber where
  | nan
  | infinity (negative : Bool)
  | finite (value : Int)
deriving DecidableEq, Repr

/-- The body of the listing response of `getTodos`. -/
structure TodoPage where
  page : JsNumber
  limit : JsNumber
  total : Nat
  totalPages : JsNumber
  data : List Todo
deriving DecidableEq, Repr

/-- Response bodies sent by the handlers. -/
inductive Body where
  | message (text : String)
  | todo (t : Todo)
  | todoPage (p : TodoPage)
  | session (token : String) (user : PublicUser)
  | profile (user : PublicUser)
  | empty
deriving DecidableEq, Repr

/-- An HTTP response: status code and body. -/
structure Response where
  status : Nat
  body : Body
deriving DecidableEq, Repr

/-- A failure raised by the document store, which a handler passes to `next`. -/
inductive StoreFailure where
  | castError (value : String)
  | negativeSkip (skip : Int)
  | validation
  | duplicateKey
deriving DecidableEq, Repr

deriving instance DecidableEq for Except

/-! ## Document store operations on todos -/

/-- The filter `{ _id: id, user: req.user._id }` once the id is cast. -/
def matchesIdAndUser (id uid : ObjectId) (t : Todo) : Bool :=
  t._id == id && t.user == uid

/-- The call `Todo.findOneAndUpdate(filter, update, { new: true })`: the first document matching
the filter is replaced by its update; the updated document (or nothing) is returned. -/
def findOneAndUpdate (p : Todo → Bool) (f : Todo → Todo) : List Todo → Option Todo × List Todo
  | [] => (none, [])
  | t :: ts =>
    if p t then (some (f t), f t :: ts)
    else ((findOneAndUpdate p f ts).1, t :: (findOneAndUpdate p f ts).2)

/-- The call `Todo.findOneAndDelete(filter)`: the first document matching the filter is removed
and returned. -/
def findOneAndDelete (p : Todo → Bool) : List Todo → Option Todo × List Todo
  | [] => (none, [])
  | t :: ts =>
    if p t then (some t, ts)
    else ((findOneAndDelete p ts).1, t :: (findOneAndDelete p ts).2)

/-- The value of a hexadecimal digit. -/
def hexDigitValue (c : Char) : Option Nat :=
  if c.isDigit then some (c.toNat - 48)
  else if 97 ≤ c.toNat && c.toNat ≤ 102 then some (c.toNat - 87)
  else if 65 ≤ c.toNat && c.toNat ≤ 70 then some (c.toNat - 55)
  else none

/-- A cast of request ids for examples: a string of 24 hexadecimal digits is the identifier it
writes, any other string is a cast error. -/
def hexObjectId (s : String) : Option ObjectId :=
  if s.length = 24 then
    s.toList.foldl
      (fun acc c =>
        match acc, hexDigitValue c with
        | some a, some d => some (16 * a + d)
        | _, _ => none)
      (some 0)
  else none

/-! ## Todo handlers -/

/-- The test `['pending', 'completed'].includes(status)` on the `status` field of the body
(`none` is an absent field). -/
def isValidStatus (status : Option String) : Bool :=
  match status with
  | some s => s == "pending" || s == "completed"
  | none => false

/-- The handler `updateTodoStatus` (PATCH /api/todos/:id) for principal `uid`.  The id is the
`:id` segment of the path, any string; `castId` is the cast of the query filter to the `_id`
type of the Todo schema (`models/Todo.js` is not part of the sources), `none` when the store
call throws a cast error, which the `catch` passes to `next`. -/
def updateTodoStatus (castId : String → Option ObjectId) (store : List Todo) (uid : ObjectId)
    (id : String) (status : Option String) : Except StoreFailure Response × List Todo :=
  match status with
  | none => (.ok ⟨400, .message "Status must be pending or completed"⟩, store)
  | some s =>
    if isValidStatus (some s) = false then
      (.ok ⟨400, .message "Status must be pending or completed"⟩, store)
    else
      match castId id with
      | none => (.error (.castError id), store)
      | some oid =>
        match
          findOneAndUpdate (matchesIdAndUser oid uid) (fun t => { t with status := s }) store
        with
        | (none, store1) => (.ok ⟨404, .message "Todo not found"⟩, store1)
        | (some todo, store1) => (.ok ⟨200, .todo todo⟩, store1)

/-- The handler `deleteTodo` (DELETE /api/todos/:id) for principal `uid`, with the id and the
cast as in `updateTodoStatus`. -/
def deleteTodo (castId : String → Option ObjectId) (store : List Todo) (uid : ObjectId)
    (id : String) : Except StoreFailure Response × List Todo :=
  match castId id with
  | none => (.error (.castError id), store)
  | some oid =>
    match findOneAndDelete (matchesIdAndUser oid uid) store with
    | (none, store1) => (.ok ⟨404, .message "Todo not found"⟩, store1)
    | (some _, store1) => (.ok ⟨204, .empty⟩, store1)

/-- Every todo of the store has its own identifier. -/
def UniqueIds (store : List Todo) : Prop :=
  (store.map (fun t => t._id)).Nodup

/-- The store after `n` further `deleteTodo` requests for the same id by the same principal. -/
def deleteAgain (castId : String → Option ObjectId) (uid : ObjectId) (id : String) :
    Nat → List Todo → List Todo
  | 0, store => store
  | n + 1, store => deleteAgain castId uid id n (deleteTodo castId store uid id).2

/-! ## Listing: query parsing and pagination -/

/-- The query string of a listing request: `req.query.page` and `req.query.limit`
(`none` is an absent parameter). -/
structure ListQuery where
  page : Option String
  limit : Option String
deriving DecidableEq, Repr

/-- The number of low bits a natural number loses when it is cut to the 53 bits of a double
mantissa (`fuel` bounds the halvings; the number itself is enough). -/
def excessBits : Nat → Nat → Nat
  | 0, _ => 0
  | fuel + 1, n => if n < 2 ^ 53 then 0 else excessBits fuel (n / 2) + 1

/-- The mantissa of the double nearest to `n`, for `n` of more than 53 bits: the lost bits are
rounded to nearest, ties to even. -/
def roundedMantissa (n : Nat) : Nat :=
  if 2 ^ (excessBits n n - 1) < n % 2 ^ excessBits n n ||
      (n % 2 ^ excessBits n n == 2 ^ (excessBits n n - 1) &&
        (n / 2 ^ excessBits n n) % 2 == 1) then
    n / 2 ^ excessBits n n + 1
  else n / 2 ^ excessBits n n

/-- The JavaScript number an integer result becomes: itself below `2^53`, else the nearest
double (ties to even), an infinity from `2^1024 - 2^970` on. -/
def toDouble (z : Int) : JsNumber :=
  if z.natAbs < 2 ^ 53 then .finite z
  else if 972 ≤ excessBits z.natAbs z.natAbs ||
      (excessBits z.natAbs z.natAbs == 971 && roundedMantissa z.natAbs == 2 ^ 53) then
    .infinity (decide (z < 0))
  else if z < 0 then
    .finite (-((roundedMantissa z.natAbs * 2 ^ excessBits z.natAbs z.natAbs : Nat) : Int))
  else .finite ((roundedMantissa z.natAbs * 2 ^ excessBits z.natAbs z.natAbs : Nat) : Int)

/-- The characters `parseInt` skips at the start of its input (WhiteSpace and LineTerminator
code points of ECMAScript). -/
def isStrWhiteSpace (c : Char) : Bool :=
  c.toNat ∈ [9, 10, 11, 12, 13, 32, 160, 5760, 8232, 8233, 8239, 8287, 12288, 65279] ||
    (8192 ≤ c.toNat && c.toNat ≤ 8202)

/-- The value of a run of decimal digits. -/
def digitsValue (ds : List Char) : Nat :=
  ds.foldl (fun acc c => 10 * acc + (c.toNat - 48)) 0

/-- The call `parseInt(value, 10)`: leading white space is skipped, one sign is read, then the
longest run of decimal digits, whose value becomes a number (a double); the result is `NaN`
without a digit or for an absent value. -/
def parseInt (value : Option String) : JsNumber :=
  match value with
  | none => .nan
  | some s =>
    let cs := s.toList.dropWhile isStrWhiteSpace
    let negative := cs.head? == some (Char.ofNat 45)
    let rest := if cs.head? == some (Char.ofNat 45) || cs.head? == some (Char.ofNat 43)
      then cs.tail else cs
    let ds := rest.takeWhile Char.isDigit
    if ds.isEmpty then .nan
    else toDouble (if negative then -(digitsValue ds : Int) else (digitsValue ds : Int))

/-- The expression `n || d` on a number: `NaN` and `0` are falsy. -/
def orDefault (n : JsNumber) (d : Int) : JsNumber :=
  match n with
  | .nan => .finite d
  | .infinity negative => .infinity negative
  | .finite v => if v = 0 then .finite d else .finite v

/-- The line `const page = parseInt(req.query.page, 10) || 1`. -/
def effectivePage (q : ListQuery) : JsNumber :=
  orDefault (parseInt q.page) 1

/-- The line `const limit = parseInt(req.query.limit, 10) || 10`. -/
def effectiveLimit (q : ListQuery) : JsNumber :=
  orDefault (parseInt q.limit) 10

/-- The expression `page - 1`. -/
def minusOne (page : JsNumber) : JsNumber :=
  match page with
  | .finite v => toDouble (v - 1)
  | other => other

/-- The product of two numbers. -/
def times (a b : JsNumber) : JsNumber :=
  match a, b with
  | .nan, _ => .nan
  | _, .nan => .nan
  | .infinity s, .infinity t => .infinity (s != t)
  | .infinity s, .finite y => if y = 0 then .nan else .infinity (s != decide (y < 0))
  | .finite x, .infinity t => if x = 0 then .nan else .infinity (decide (x < 0) != t)
  | .finite x, .finite y => toDouble (x * y)

/-- The line `const skip = (page - 1) * limit`. -/
def skipOf (q : ListQuery) : JsNumber :=
  times (minusOne (effectivePage q)) (effectiveLimit q)

/-- The order of `.sort({ createdAt: -1 })`: newer first. -/
def newerFirst (a b : Todo) : Prop :=
  b.createdAt ≤ a.createdAt

instance newerFirstDecidable : DecidableRel newerFirst :=
  fun a b => inferInstanceAs (Decidable (b.createdAt ≤ a.createdAt))

/-- The query `Todo.find({ user: uid }).sort({ createdAt: -1 })`. -/
def findSorted (store : List Todo) (uid : ObjectId) : List Todo :=
  (store.filter (fun t => t.user == uid)).insertionSort newerFirst

/-- The query `Todo.countDocuments({ user: uid })`. -/
def countDocuments (store : List Todo) (uid : ObjectId) : Nat :=
  (store.filter (fun t => t.user == uid)).length

/-- Whether an integer is one of the 64-bit integers the store counts documents with. -/
def isInt64 (z : Int) : Bool :=
  decide (-(2 ^ 63) ≤ z) && decide (z < 2 ^ 63)

/-- The cursor `.skip(skip).limit(limit)` over the sorted result, for a skip and a limit that
are 64-bit integers: the store rejects a negative skip; a negative limit is taken by its
absolute value and a zero limit is no limit.  What the driver and the server do with any other
number (not a number, infinite, beyond 64 bits) is not decided by the sources: it is the
parameter `beyondInt64`. -/
def skipLimit (beyondInt64 : List Todo → JsNumber → JsNumber → Except StoreFailure (List Todo))
    (sorted : List Todo) (skip limit : JsNumber) : Except StoreFailure (List Todo) :=
  match skip, limit with
  | .finite s, .finite l =>
    if isInt64 s && isInt64 l then
      if s < 0 then .error (.negativeSkip s)
      else if l = 0 then .ok (sorted.drop s.toNat)
      else .ok ((sorted.drop s.toNat).take l.natAbs)
    else beyondInt64 sorted skip limit
  | _, _ => beyondInt64 sorted skip limit

/-- The expression `Math.ceil(total / limit)` for a non-zero finite limit. -/
def ceilDiv (total : Nat) (limit : Int) : Int :=
  -(Int.fdiv (-(total : Int)) limit)

/-- The expression `Math.ceil(total / limit) || 1`. -/
def totalPagesOf (total : Nat) (limit : JsNumber) : JsNumber :=
  match limit with
  | .nan => .finite 1
  | .infinity _ => .finite 1
  | .finite l =>
    if l = 0 then (if total = 0 then .finite 1 else .infinity false)
    else orDefault (.finite (ceilDiv total l)) 1

/-- The handler `getTodos` (GET /api/todos) for principal `uid`: the listing body it sends with
status 200, or the store failure it passes to `next`. -/
def getTodos (beyondInt64 : List Todo → JsNumber → JsNumber → Except StoreFailure (List Todo))
    (store : List Todo) (uid : ObjectId) (q : ListQuery) : Except StoreFailure TodoPage :=
  match skipLimit beyondInt64 (findSorted store uid) (skipOf q) (effectiveLimit q) with
  | .error e => .error e
  | .ok todos =>
    .ok
      { page := effectivePage q
        limit := effectiveLimit q
        total := countDocuments store uid
        totalPages := totalPagesOf (countDocuments store uid) (effectiveLimit q)
        data := todos }

/-- A store of `n` todos of principal `uid`, created at times `1 .. n`. -/
def sampleTodos (uid : ObjectId) : Nat → List Todo
  | 0 => []
  | n + 1 =>
    { _id := n + 1, title := "t", description := none, status := "pending", user := uid,
      createdAt := n + 1 } :: sampleTodos uid n

/-- A store that answers every skip or limit beyond the 64-bit integers with an empty page,
for examples. -/
def emptyBeyondInt64 (_ : List Todo) (_ _ : JsNumber) : Except StoreFailure (List Todo) :=
  .ok []

/-! ## Auth middleware -/

/-- Why `jwt.verify` throws. -/
inductive JwtFailure where
  | invalid
  | expired
deriving DecidableEq, Repr

/-- What the middleware does: call `next()` with `req.user` set, or send a response. -/
inductive AuthResult where
  | next (user : PublicUser)
  | respond (r : Response)
deriving DecidableEq, Repr

/-- The test `authHeader.startsWith('Bearer ')`. -/
def startsWithBearer (header : String) : Bool :=
  "Bearer ".toList.isPrefixOf header.toList

/-- The pieces of `text.split(sep)` for a one-character separator. -/
def splitChars (sep : Char) : List Char → List (List Char)
  | [] => [[]]
  | c :: cs =>
    if c = sep then [] :: splitChars sep cs
    else
      match splitChars sep cs with
      | [] => [[c]]
      | piece :: pieces => (c :: piece) :: pieces

/-- The expression `authHeader.split(' ')[1]` (`none` is `undefined`). -/
def bearerToken (header : String) : Option String :=
  ((splitChars (Char.ofNat 32) header.toList)[1]?).map String.mk

/-- The projection `.select('-password')`. -/
def withoutPassword (u : User) : PublicUser :=
  { _id := u._id, name := u.name, email := u.email }

/-- The query `User.findById(id)`. -/
def findById (users : List User) (id : ObjectId) : Option User :=
  users.find? (fun u => u._id == id)

/-- The middleware `auth`.  `jwtVerify` is `jwt.verify(token, config.jwtSecret)` projected on
`decoded.id`; it throws on an invalid or an expired token. -/
def auth (jwtVerify : String → Except JwtFailure ObjectId) (users : List User)
    (authorization : Option String) : AuthResult :=
  match authorization with
  | none => .respond ⟨401, .message "Authorization token missing"⟩
  | some header =>
    if header = "" || startsWithBearer header = false then
      .respond ⟨401, .message "Authorization token missing"⟩
    else
      match bearerToken header with
      | none => .respond ⟨401, .message "Invalid or expired token"⟩
      | some token =>
        match jwtVerify token with
        | .error _ => .respond ⟨401, .message "Invalid or expired token"⟩
        | .ok id =>
          match findById users id with
          | none => .respond ⟨401, .message "User not found"⟩
          | some u => .next (withoutPassword u)

/-- A protected route `router.METHOD(path, auth, handler)` over a state `σ`: the handler runs
only when `auth` calls `next()`. -/
def protectedRoute {σ : Type} (jwtVerify : String → Except JwtFailure ObjectId)
    (users : List User) (handler : PublicUser → σ → Response × σ)
    (authorization : Option String) (st : σ) : Response × σ :=
  match auth jwtVerify users authorization with
  | .next user => handler user st
  | .respond r => (r, st)

/-- The handler `getProfile` (GET /api/auth/user/profile). -/
def getProfile (user : PublicUser) : Response :=
  ⟨200, .profile user⟩

/-! ## Error handler -/

/-- An error object reaching `errorHandler`: its `message` and `statusCode` fields
(`none` is an absent field). -/
structure JsError where
  message : Option String
  statusCode : Option Nat
deriving DecidableEq, Repr

/-- The expression `err.statusCode || 500`. -/
def statusCodeOf (err : JsError) : Nat :=
  match err.statusCode with
  | some code => if code = 0 then 500 else code
  | none => 500

/-- The expression `err.message || 'Internal Server Error'`. -/
def messageOf (err : JsError) : String :=
  match err.message with
  | some m => if m = "" then "Internal Server Error" else m
  | none => "Internal Server Error"

/-- Whether a response with this status carries no body (informational, 204 and 304). -/
def isBodyless (status : Nat) : Bool :=
  (100 ≤ status && status ≤ 199) || status == 204 || status == 304

/-- The middleware `errorHandler`: it sends `res.status(statusCode).json({ message })`.  A status
code outside `100 .. 999` cannot be written to the response: the call throws and `none` of the
handler's JSON responses is sent.  A response with a bodyless status is sent without the
message. -/
def errorHandler (err : JsError) : Option Response :=
  if 100 ≤ statusCodeOf err && statusCodeOf err ≤ 999 then
    if isBodyless (statusCodeOf err) then some ⟨statusCodeOf err, .empty⟩
    else some ⟨statusCodeOf err, .message (messageOf err)⟩
  else none

/-! ## Register -/

/-- Modelled from the spec: the parts of `models/User.js` and `config/config.js` that `register`
relies on and that are not part of the sources: the email setter of the schema (run on saves and
on query filters), the password hash of the save hook, the schema validation, the identifier
given to a new document, and the token signature of `generateToken`. -/
structure AccountEnv where
  normalizeEmail : String → String
  hashPassword : String → String
  validate : String → String → String → Bool
  freshId : List User → ObjectId
  sign : ObjectId → String

/-- The body of a register request (`none` is an absent field). -/
structure RegisterBody where
  name : Option String
  email : Option String
  password : Option String
deriving DecidableEq, Repr

/-- The query `User.findOne({ email })`. -/
def findOneByEmail (env : AccountEnv) (users : List User) (email : String) : Option User :=
  users.find? (fun u => u.email == env.normalizeEmail email)

/-- Modelled from the spec: the call `User.create({ name, email, password })` (`models/User.js`
is not part of the sources): the schema validates the fields, the unique index on the email
rejects a stored email, the password is stored hashed. -/
def userCreate (env : AccountEnv) (users : List User) (name email password : String) :
    Except StoreFailure User :=
  if env.validate name email password = false then .error .validation
  else if users.any (fun u => u.email == env.normalizeEmail email) then .error .duplicateKey
  else
    .ok
      { _id := env.freshId users
        name := name
        email := env.normalizeEmail email
        password := env.hashPassword password }

/-- The handler `register` (POST /api/auth/register): the response it sends (or the failure it
passes to `next`) and the accounts it leaves. -/
def register (env : AccountEnv) (users : List User) (body : RegisterBody) :
    Except StoreFailure Response × List User :=
  match body.name, body.email, body.password with
  | some name, some email, some password =>
    if name = "" || email = "" || password = "" then
      (.ok ⟨400, .message "Name, email and password are required"⟩, users)
    else
      match findOneByEmail env users email with
      | some _ => (.ok ⟨400, .message "Email already in use"⟩, users)
      | none =>
        match userCreate env users name email password with
        | .error e => (.error e, users)
        | .ok user =>
          (.ok ⟨201, .session (env.sign user._id) (withoutPassword user)⟩, users ++ [user])
  | _, _, _ => (.ok ⟨400, .message "Name, email and password are required"⟩, users)

/-- The accounts after a sequence of register requests. -/
def registerAll (env : AccountEnv) (users : List User) : List RegisterBody → List User
  | [] => users
  | body :: rest => registerAll env (register env users body).2 rest

/-- No two stored accounts share an email. -/
def UniqueEmails (users : List User) : Prop :=
  (users.map (fun u => u.email)).Nodup

/-- An environment for examples: lower-casing email setter, every input valid. -/
def sampleEnv : AccountEnv :=
  { normalizeEmail := fun e => String.mk (e.toList.map Char.toLower)
    hashPassword := fun p => "#" ++ p
    validate := fun _ _ _ => true
    freshId := fun users => users.length + 1
    sign := fun id => "token-" ++ toString id }

/-- A store for examples: two todos of account 1 and one of account 2. -/
def sampleStore : List Todo :=
  [⟨10, "Buy milk", none, "pending", 1, 5⟩, ⟨11, "Call Bob", some "today", "pending", 1, 6⟩,
    ⟨12, "Pay rent", none, "completed", 2, 7⟩]

/-! ## Lemmas on the store operations -/

theorem findOneAndUpdate_none (p : Todo → Bool) (f : Todo → Todo) (store : List Todo)
    (h : ∀ t ∈ store, p t = false) : findOneAndUpdate p f store = (none, store) := by
  induction store with
  | nil => rfl
  | cons t ts ih =>
    have ht : p t = false := h t (List.mem_cons_self _ _)
    have hts : ∀ x ∈ ts, p x = false := fun x hx => h x (List.mem_cons_of_mem _ hx)
    simp [findOneAndUpdate, ht, ih hts]

theorem findOneAndDelete_none (p : Todo → Bool) (store : List Todo)
    (h : ∀ t ∈ store, p t = false) : findOneAndDelete p store = (none, store) := by
  induction store with
  | nil => rfl
  | cons t ts ih =>
    have ht : p t = false := h t (List.mem_cons_self _ _)
    have hts : ∀ x ∈ ts, p x = false := fun x hx => h x (List.mem_cons_of_mem _ hx)
    simp [findOneAndDelete, ht, ih hts]

theorem findOneAndUpdate_some (p : Todo → Bool) (f : Todo → Todo) (store : List Todo)
    (h : ∃ t ∈ store, p t = true) :
    ∃ pre t post, store = pre ++ t :: post ∧ p t = true ∧ (∀ x ∈ pre, p x = false) ∧
      findOneAndUpdate p f store = (some (f t), pre ++ f t :: post) := by
  induction store with
  | nil => obtain ⟨t, ht, _⟩ := h; cases ht
  | cons a ts ih =>
    by_cases ha : p a = true
    · exact ⟨[], a, ts, rfl, ha, by simp, by simp [findOneAndUpdate, ha]⟩
    · have ha2 : p a = false := by simpa using ha
      have hex : ∃ t ∈ ts, p t = true := by
        obtain ⟨t, ht, hpt⟩ := h
        rcases List.mem_cons.mp ht with rfl | hmem
        · exact absurd hpt ha
        · exact ⟨t, hmem, hpt⟩
      obtain ⟨pre, t, post, hs, hpt, hpre, hres⟩ := ih hex
      refine ⟨a :: pre, t, post, by simp [hs], hpt, ?_, ?_⟩
      · intro x hx
        rcases List.mem_cons.mp hx with rfl | hmem
        · exact ha2
        · exact hpre x hmem
      · simp [findOneAndUpdate, ha2, hres]

theorem findOneAndDelete_some (p : Todo → Bool) (store : List Todo)
    (h : ∃ t ∈ store, p t = true) :
    ∃ pre t post, store = pre ++ t :: post ∧ p t = true ∧ (∀ x ∈ pre, p x = false) ∧
      findOneAndDelete p store = (some t, pre ++ post) := by
  induction store with
  | nil => obtain ⟨t, ht, _⟩ := h; cases ht
  | cons a ts ih =>
    by_cases ha : p a = true
    · exact ⟨[], a, ts, rfl, ha, by simp, by simp [findOneAndDelete, ha]⟩
    · have ha2 : p a = false := by simpa using ha
      have hex : ∃ t ∈ ts, p t = true := by
        obtain ⟨t, ht, hpt⟩ := h
        rcases List.mem_cons.mp ht with rfl | hmem
        · exact absurd hpt ha
        · exact ⟨t, hmem, hpt⟩
      obtain ⟨pre, t, post, hs, hpt, hpre, hres⟩ := ih hex
      refine ⟨a :: pre, t, post, by simp [hs], hpt, ?_, ?_⟩
      · intro x hx
        rcases List.mem_cons.mp hx with rfl | hmem
        · exact ha2
        · exact hpre x hmem
      · simp [findOneAndDelete, ha2, hres]

theorem matchesIdAndUser_false_of_foreign (store : List Todo) (uid id : ObjectId)
    (h : ∀ t ∈ store, t._id = id → t.user ≠ uid) :
    ∀ t ∈ store, matchesIdAndUser id uid t = false := by
  intro t ht
  by_cases hid : t._id = id
  · have := h t ht hid
    simp [matchesIdAndUser, hid, this]
  · simp [matchesIdAndUser, hid]

theorem matchesIdAndUser_iff (id uid : ObjectId) (t : Todo) :
    matchesIdAndUser id uid t = true ↔ t._id = id ∧ t.user = uid := by
  simp [matchesIdAndUser]

theorem deleteTodo_notFound (castId : String → Option ObjectId) (store : List Todo)
    (uid : ObjectId) (id : String) (oid : ObjectId) (hcast : castId id = some oid)
    (h : ∀ t ∈ store, matchesIdAndUser oid uid t = false) :
    deleteTodo castId store uid id = (.ok ⟨404, .message "Todo not found"⟩, store) := by
  simp [deleteTodo, hcast, findOneAndDelete_none _ store h]

theorem deleteTodo_castError (castId : String → Option ObjectId) (store : List Todo)
    (uid : ObjectId) (id : String) (hcast : castId id = none) :
    deleteTodo castId store uid id = (.error (.castError id), store) := by
  simp [deleteTodo, hcast]

theorem deleteAgain_notFound (castId : String → Option ObjectId) (uid : ObjectId) (id : String)
    (oid : ObjectId) (hcast : castId id = some oid) (n : Nat) (store : List Todo)
    (h : ∀ t ∈ store, matchesIdAndUser oid uid t = false) :
    deleteAgain castId uid id n store = store := by
  induction n with
  | zero => rfl
  | succ k ih => simp [deleteAgain, deleteTodo_notFound castId store uid id oid hcast h, ih]

theorem no_match_after_delete (pre post : List Todo) (t : Todo) (uid id : ObjectId)
    (hunique : UniqueIds (pre ++ t :: post)) (ht : matchesIdAndUser id uid t = true)
    (hpre : ∀ x ∈ pre, matchesIdAndUser id uid x = false) :
    ∀ x ∈ pre ++ post, matchesIdAndUser id uid x = false := by
  intro x hx
  rcases List.mem_append.mp hx with h | h
  · exact hpre x h
  · have hid : t._id = id := ((matchesIdAndUser_iff id uid t).mp ht).1
    have hnd : (List.map (fun t => t._id) (t :: post)).Nodup := by
      have := hunique
      unfold UniqueIds at this
      rw [List.map_append] at this
      exact (List.nodup_append.mp this).2.1
    rw [List.map_cons, List.nodup_cons] at hnd
    have hne : x._id ≠ id := by
      intro hxid
      apply hnd.1
      rw [hid, ← hxid]
      exact List.mem_map_of_mem (fun t => t._id) h
    simp [matchesIdAndUser, hne]

theorem updateTodoStatus_invalid (castId : String → Option ObjectId) (store : List Todo)
    (uid : ObjectId) (id : String) (status : Option String)
    (h : status ≠ some "pending" ∧ status ≠ some "completed") :
    updateTodoStatus castId store uid id status =
      (.ok ⟨400, .message "Status must be pending or completed"⟩, store) := by
  cases status with
  | none => rfl
  | some s =>
    have h1 : s ≠ "pending" := fun e => h.1 (by rw [e])
    have h2 : s ≠ "completed" := fun e => h.2 (by rw [e])
    simp [updateTodoStatus, isValidStatus, h1, h2]

theorem updateTodoStatus_castError (castId : String → Option ObjectId) (store : List Todo)
    (uid : ObjectId) (id : String) (s : String) (hs : s = "pending" ∨ s = "completed")
    (hcast : castId id = none) :
    updateTodoStatus castId store uid id (some s) = (.error (.castError id), store) := by
  have hv : isValidStatus (some s) = true := by
    rcases hs with h | h <;> simp [isValidStatus, h]
  simp [updateTodoStatus, hv, hcast]

theorem updateTodoStatus_valid (castId : String → Option ObjectId) (store : List Todo)
    (uid : ObjectId) (id : String) (oid : ObjectId) (s : String)
    (hs : s = "pending" ∨ s = "completed") (hcast : castId id = some oid) :
    ((∀ t ∈ store, matchesIdAndUser oid uid t = false) ∧
        updateTodoStatus castId store uid id (some s) =
          (.ok ⟨404, .message "Todo not found"⟩, store)) ∨
      ∃ pre t post, store = pre ++ t :: post ∧ matchesIdAndUser oid uid t = true ∧
        (∀ x ∈ pre, matchesIdAndUser oid uid x = false) ∧
        updateTodoStatus castId store uid id (some s) =
          (.ok ⟨200, .todo { t with status := s }⟩, pre ++ { t with status := s } :: post) := by
  have hv : isValidStatus (some s) = true := by
    rcases hs with h | h <;> simp [isValidStatus, h]
  by_cases hex : ∃ t ∈ store, matchesIdAndUser oid uid t = true
  · right
    obtain ⟨pre, t, post, hst, hpt, hpre, hres⟩ :=
      findOneAndUpdate_some _ (fun t => { t with status := s }) store hex
    exact ⟨pre, t, post, hst, hpt, hpre, by simp [updateTodoStatus, hv, hcast, hres]⟩
  · left
    have hno : ∀ t ∈ store, matchesIdAndUser oid uid t = false := by
      intro t ht
      by_contra hc
      exact hex ⟨t, ht, by simpa using hc⟩
    exact ⟨hno, by simp [updateTodoStatus, hv, hcast, findOneAndUpdate_none _ _ store hno]⟩

theorem option_status_cases (status : Option String) :
    (status ≠ some "pending" ∧ status ≠ some "completed") ∨
      ∃ s, status = some s ∧ (s = "pending" ∨ s = "completed") := by
  by_cases h1 : status = some "pending"
  · exact Or.inr ⟨"pending", h1, Or.inl rfl⟩
  · by_cases h2 : status = some "completed"
    · exact Or.inr ⟨"completed", h2, Or.inr rfl⟩
    · exact Or.inl ⟨h1, h2⟩

/-! ## Ownership-scoped update and delete -/

/-- C1, as stated, fails: the id of the path is any string, and for one that is not a
well-formed identifier (so that no todo carries it) the store call throws a cast error;
`updateTodoStatus` and `deleteTodo` pass it to `next` and do not answer 404. -/
theorem malformed_todo_id_is_not_answered_404 :
    hexObjectId "not-an-id" = none ∧
      updateTodoStatus hexObjectId sampleStore 2 "not-an-id" (some "completed") =
        (.error (.castError "not-an-id"), sampleStore) ∧
      deleteTodo hexObjectId sampleStore 2 "not-an-id" =
        (.error (.castError "not-an-id"), sampleStore) ∧
      (updateTodoStatus hexObjectId sampleStore 2 "not-an-id" (some "completed")).1 ≠
        .ok ⟨404, .message "Todo not found"⟩ ∧
      (deleteTodo hexObjectId sampleStore 2 "not-an-id").1 ≠
        .ok ⟨404, .message "Todo not found"⟩ := by
  refine ⟨by decide, by decide, by decide, by decide, by decide⟩

/-- C1, amended: for every store, every principal `b` and every well-formed todo id (one the
store casts to an identifier) whose todo is absent or owned by an account other than `b`,
`updateTodoStatus` (with a valid status) and `deleteTodo` invoked by `b` both answer 404
"Todo not found" and leave the store exactly as it was, with the same answer for a foreign and
for an absent todo; and for an id that is not well-formed the store is left as it was too. -/
theorem wellformed_foreign_or_absent_todo_not_found (castId : String → Option ObjectId)
    (store : List Todo) (b : ObjectId) (id : String) (status : String)
    (hstatus : status = "pending" ∨ status = "completed") :
    (∀ oid, castId id = some oid → (∀ t ∈ store, t._id = oid → t.user ≠ b) →
        updateTodoStatus castId store b id (some status) =
            (.ok ⟨404, .message "Todo not found"⟩, store) ∧
          deleteTodo castId store b id = (.ok ⟨404, .message "Todo not found"⟩, store)) ∧
      (castId id = none →
        (updateTodoStatus castId store b id (some status)).2 = store ∧
          (deleteTodo castId store b id).2 = store) := by
  constructor
  · intro oid hcast hforeign
    have hno := matchesIdAndUser_false_of_foreign store b oid hforeign
    refine ⟨?_, deleteTodo_notFound castId store b id oid hcast hno⟩
    rcases updateTodoStatus_valid castId store b id oid status hstatus hcast with
      ⟨_, h⟩ | ⟨pre, t, post, h1, h2, _, _⟩
    · exact h
    · have := hno t (by rw [h1]; simp)
      rw [this] at h2
      cases h2
  · intro hcast
    rw [updateTodoStatus_castError castId store b id status hstatus hcast,
      deleteTodo_castError castId store b id hcast]
    exact ⟨rfl, rfl⟩

/-- C1 amended, at the example store: account 2 asks for todo 10 (owned by account 1) and for
todo 15 (absent), and gets the same answer. -/
theorem wellformed_foreign_or_absent_todo_not_found_witness :
    (updateTodoStatus hexObjectId sampleStore 2 "00000000000000000000000a" (some "completed") =
          (.ok ⟨404, .message "Todo not found"⟩, sampleStore) ∧
        deleteTodo hexObjectId sampleStore 2 "00000000000000000000000a" =
          (.ok ⟨404, .message "Todo not found"⟩, sampleStore)) ∧
      (updateTodoStatus hexObjectId sampleStore 2 "00000000000000000000000f" (some "completed") =
          (.ok ⟨404, .message "Todo not found"⟩, sampleStore) ∧
        deleteTodo hexObjectId sampleStore 2 "00000000000000000000000f" =
          (.ok ⟨404, .message "Todo not found"⟩, sampleStore)) :=
  ⟨(wellformed_foreign_or_absent_todo_not_found hexObjectId sampleStore 2
      "00000000000000000000000a" "completed" (Or.inr rfl)).1 10 (by decide) (by decide),
    (wellformed_foreign_or_absent_todo_not_found hexObjectId sampleStore 2
      "00000000000000000000000f" "completed" (Or.inr rfl)).1 15 (by decide) (by decide)⟩

/-- C8, as stated, fails: for an id of the path that is not a well-formed identifier, the
first `deleteTodo` answers neither 204 nor 404 (the cast error goes to `next`), and a further
`deleteTodo` for the same id by the same principal does not answer 404 either. -/
theorem malformed_todo_id_delete_is_never_404 :
    deleteTodo hexObjectId sampleStore 1 "not-an-id" =
        (.error (.castError "not-an-id"), sampleStore) ∧
      deleteTodo hexObjectId (deleteTodo hexObjectId sampleStore 1 "not-an-id").2 1 "not-an-id" =
        (.error (.castError "not-an-id"), sampleStore) ∧
      (deleteTodo hexObjectId (deleteTodo hexObjectId sampleStore 1 "not-an-id").2 1
          "not-an-id").1 ≠ .ok ⟨404, .message "Todo not found"⟩ := by
  refine ⟨by decide, by decide, by decide⟩

/-- C8, amended: for every store of todos with unique ids, every principal and every
well-formed todo id (one the store casts to an identifier), one `deleteTodo` request answers
204 or 404; every further `deleteTodo` for the same id by the same principal answers 404 and
leaves the store as the first request left it; a 204 removes exactly one todo, which matches
the id and the owner, and keeps every other todo in place; a 404 removes nothing. -/
theorem deleteTodo_never_succeeds_twice (castId : String → Option ObjectId) (store : List Todo)
    (uid : ObjectId) (id : String) (oid : ObjectId) (hcast : castId id = some oid)
    (hunique : UniqueIds store) :
    ((deleteTodo castId store uid id).1 = .ok ⟨204, .empty⟩ ∨
        (deleteTodo castId store uid id).1 = .ok ⟨404, .message "Todo not found"⟩) ∧
      (∀ n : Nat,
        deleteTodo castId (deleteAgain castId uid id n (deleteTodo castId store uid id).2) uid id =
          (.ok ⟨404, .message "Todo not found"⟩, (deleteTodo castId store uid id).2)) ∧
      ((deleteTodo castId store uid id).1 = .ok ⟨204, .empty⟩ →
        ∃ pre t post, store = pre ++ t :: post ∧ t._id = oid ∧ t.user = uid ∧
          (deleteTodo castId store uid id).2 = pre ++ post) ∧
      ((deleteTodo castId store uid id).1 = .ok ⟨404, .message "Todo not found"⟩ →
        (deleteTodo castId store uid id).2 = store) := by
  by_cases hex : ∃ t ∈ store, matchesIdAndUser oid uid t = true
  · obtain ⟨pre, t, post, hs, hpt, hpre, hres⟩ := findOneAndDelete_some _ store hex
    have hdel : deleteTodo castId store uid id = (.ok ⟨204, .empty⟩, pre ++ post) := by
      simp [deleteTodo, hcast, hres]
    have hno : ∀ x ∈ pre ++ post, matchesIdAndUser oid uid x = false :=
      no_match_after_delete pre post t uid oid (hs ▸ hunique) hpt hpre
    rw [hdel]
    refine ⟨Or.inl rfl, ?_, ?_, ?_⟩
    · intro n
      show deleteTodo castId (deleteAgain castId uid id n (pre ++ post)) uid id = _
      rw [deleteAgain_notFound castId uid id oid hcast n _ hno]
      exact deleteTodo_notFound castId _ uid id oid hcast hno
    · intro _
      have := (matchesIdAndUser_iff oid uid t).mp hpt
      exact ⟨pre, t, post, hs, this.1, this.2, rfl⟩
    · intro h
      simp at h
  · have hno : ∀ t ∈ store, matchesIdAndUser oid uid t = false := by
      intro t ht
      by_contra hc
      exact hex ⟨t, ht, by simpa using hc⟩
    have hdel := deleteTodo_notFound castId store uid id oid hcast hno
    rw [hdel]
    refine ⟨Or.inr rfl, ?_, ?_, ?_⟩
    · intro n
      show deleteTodo castId (deleteAgain castId uid id n store) uid id = _
      rw [deleteAgain_notFound castId uid id oid hcast n _ hno]
      exact hdel
    · intro h
      simp at h
    · intro _
      rfl

/-- C8 amended, at the example store: account 1 deletes its todo 11, then asks again. -/
theorem deleteTodo_never_succeeds_twice_witness :
    UniqueIds sampleStore ∧
      deleteTodo hexObjectId sampleStore 1 "00000000000000000000000b" =
        (.ok ⟨204, .empty⟩,
          [⟨10, "Buy milk", none, "pending", 1, 5⟩, ⟨12, "Pay rent", none, "completed", 2, 7⟩]) ∧
      (∀ n : Nat,
        deleteTodo hexObjectId
            (deleteAgain hexObjectId 1 "00000000000000000000000b" n
              (deleteTodo hexObjectId sampleStore 1 "00000000000000000000000b").2)
            1 "00000000000000000000000b" =
          (.ok ⟨404, .message "Todo not found"⟩,
            (deleteTodo hexObjectId sampleStore 1 "00000000000000000000000b").2)) :=
  ⟨by unfold UniqueIds; decide, by decide,
    (deleteTodo_never_succeeds_twice hexObjectId sampleStore 1 "00000000000000000000000b" 11
      (by decide) (by unfold UniqueIds; decide)).2.1⟩

/-- C10: `updateTodoStatus` changes nothing but the status field of the first todo matching both
the id and the principal.  A status other than exactly "pending" or "completed" (an absent one
included) answers 400 and leaves the store as it was, whatever the id and the todo.  A valid
status on a todo of the caller answers 200 with that todo, carrying the new status and its
former id, owner, title, description and creation time, and every other todo stays in place
unchanged.  Stored statuses that are all "pending" or "completed" remain so, and the id, owner,
title, description and creation time of every stored todo are the same after any request. -/
theorem updateTodoStatus_changes_status_only (castId : String → Option ObjectId)
    (store : List Todo) (uid : ObjectId) (id : String) (status : Option String) :
    ((status ≠ some "pending" ∧ status ≠ some "completed") →
        updateTodoStatus castId store uid id status =
          (.ok ⟨400, .message "Status must be pending or completed"⟩, store)) ∧
      (∀ s oid, status = some s → (s = "pending" ∨ s = "completed") → castId id = some oid →
        (∃ t ∈ store, t._id = oid ∧ t.user = uid) →
        ∃ pre t post, store = pre ++ t :: post ∧ t._id = oid ∧ t.user = uid ∧
          (∀ x ∈ pre, ¬(x._id = oid ∧ x.user = uid)) ∧
          updateTodoStatus castId store uid id status =
            (.ok ⟨200, .todo ⟨t._id, t.title, t.description, s, t.user, t.createdAt⟩⟩,
              pre ++ ⟨t._id, t.title, t.description, s, t.user, t.createdAt⟩ :: post)) ∧
      ((∀ t ∈ store, t.status = "pending" ∨ t.status = "completed") →
        ∀ t ∈ (updateTodoStatus castId store uid id status).2,
          t.status = "pending" ∨ t.status = "completed") ∧
      (updateTodoStatus castId store uid id status).2.map
          (fun t => (t._id, t.user, t.title, t.description, t.createdAt)) =
        store.map (fun t => (t._id, t.user, t.title, t.description, t.createdAt)) := by
  have hcases : ∀ s, (s = "pending" ∨ s = "completed") →
      (updateTodoStatus castId store uid id (some s)).2 = store ∨
        ∃ pre t post, store = pre ++ t :: post ∧
          (updateTodoStatus castId store uid id (some s)).2 =
            pre ++ { t with status := s } :: post := by
    intro s hs
    cases hcast : castId id with
    | none =>
      left
      rw [updateTodoStatus_castError castId store uid id s hs hcast]
    | some oid =>
      rcases updateTodoStatus_valid castId store uid id oid s hs hcast with
        ⟨_, h⟩ | ⟨pre, t, post, h1, _, _, h4⟩
      · left
        rw [h]
      · right
        exact ⟨pre, t, post, h1, by rw [h4]⟩
  refine ⟨updateTodoStatus_invalid castId store uid id status, ?_, ?_, ?_⟩
  · intro s oid hst hs hcast hex
    subst hst
    rcases updateTodoStatus_valid castId store uid id oid s hs hcast with
      ⟨hno, _⟩ | ⟨pre, t, post, h1, h2, h3, h4⟩
    · obtain ⟨t, ht, hid, hu⟩ := hex
      have := hno t ht
      simp [matchesIdAndUser, hid, hu] at this
    · have hm := (matchesIdAndUser_iff oid uid t).mp h2
      refine ⟨pre, t, post, h1, hm.1, hm.2, ?_, h4⟩
      intro x hx hc
      have := h3 x hx
      simp [matchesIdAndUser, hc.1, hc.2] at this
  · intro hall
    rcases option_status_cases status with hbad | ⟨s, hst, hs⟩
    · rw [updateTodoStatus_invalid castId store uid id status hbad]
      exact hall
    · subst hst
      rcases hcases s hs with h | ⟨pre, t, post, h1, h4⟩
      · rw [h]
        exact hall
      · rw [h4]
        intro x hx
        simp only [List.mem_append, List.mem_cons] at hx
        rcases hx with hx | rfl | hx
        · exact hall x (by rw [h1]; simp [hx])
        · exact hs
        · exact hall x (by rw [h1]; simp [hx])
  · rcases option_status_cases status with hbad | ⟨s, hst, hs⟩
    · rw [updateTodoStatus_invalid castId store uid id status hbad]
    · subst hst
      rcases hcases s hs with h | ⟨pre, t, post, h1, h4⟩
      · rw [h]
      · rw [h4, h1]
        simp

/-- C10, at the example store: account 1 completes its todo 11; a "bogus" status answers 400. -/
theorem updateTodoStatus_changes_status_only_witness :
    updateTodoStatus hexObjectId sampleStore 1 "00000000000000000000000b" (some "bogus") =
        (.ok ⟨400, .message "Status must be pending or completed"⟩, sampleStore) ∧
      updateTodoStatus hexObjectId sampleStore 1 "00000000000000000000000b" (some "completed") =
        (.ok ⟨200, .todo ⟨11, "Call Bob", some "today", "completed", 1, 6⟩⟩,
          [⟨10, "Buy milk", none, "pending", 1, 5⟩,
            ⟨11, "Call Bob", some "today", "completed", 1, 6⟩,
            ⟨12, "Pay rent", none, "completed", 2, 7⟩]) ∧
      (∀ t ∈ (updateTodoStatus hexObjectId sampleStore 1 "00000000000000000000000b"
          (some "completed")).2, t.status = "pending" ∨ t.status = "completed") :=
  ⟨(updateTodoStatus_changes_status_only hexObjectId sampleStore 1 "00000000000000000000000b"
      (some "bogus")).1 (by decide),
    by decide,
    (updateTodoStatus_changes_status_only hexObjectId sampleStore 1 "00000000000000000000000b"
      (some "completed")).2.2.1 (by decide)⟩

/-! ## Listing -/

theorem mem_findSorted (store : List Todo) (uid : ObjectId) (t : Todo) :
    t ∈ findSorted store uid ↔ t ∈ store ∧ t.user = uid := by
  unfold findSorted
  rw [(List.perm_insertionSort newerFirst _).mem_iff]
  simp [List.mem_filter]

theorem length_findSorted (store : List Todo) (uid : ObjectId) :
    (findSorted store uid).length = countDocuments store uid := by
  unfold findSorted countDocuments
  exact List.length_insertionSort newerFirst _

theorem sorted_findSorted (store : List Todo) (uid : ObjectId) :
    (findSorted store uid).Sorted (fun a b => b.createdAt ≤ a.createdAt) := by
  have htotal : IsTotal Todo newerFirst := ⟨fun a b => Nat.le_total b.createdAt a.createdAt⟩
  have htrans : IsTrans Todo newerFirst :=
    ⟨fun a b c hab hbc => Nat.le_trans hbc hab⟩
  exact List.sorted_insertionSort newerFirst _

theorem toDouble_exact (z : Int) (h : z.natAbs < 2 ^ 53) : toDouble z = .finite z := by
  unfold toDouble
  rw [if_pos h]

theorem skipOf_exact (q : ListQuery) (p L : Nat)
    (hp : effectivePage q = .finite (p : Int)) (hL : effectiveLimit q = .finite (L : Int))
    (hp1 : 1 ≤ p) (hL1 : 1 ≤ L) (hskip : (p - 1) * L < 2 ^ 53) :
    skipOf q = .finite (((p - 1) * L : Nat) : Int) := by
  have hle : p - 1 ≤ (p - 1) * L := Nat.le_mul_of_pos_right _ hL1
  have h1 : ((p : Int) - 1) = ((p - 1 : Nat) : Int) := by
    rw [Nat.cast_sub hp1]
    rfl
  unfold skipOf
  rw [hp, hL]
  show times (toDouble ((p : Int) - 1)) (.finite (L : Int)) = _
  rw [h1, toDouble_exact _ (by rw [Int.natAbs_ofNat]; exact lt_of_le_of_lt hle hskip)]
  show toDouble (((p - 1 : Nat) : Int) * (L : Int)) = _
  rw [← Nat.cast_mul, toDouble_exact _ (by rw [Int.natAbs_ofNat]; exact hskip)]

theorem isInt64_of_lt (n : Nat) (h : n < 2 ^ 53) : isInt64 (n : Int) = true := by
  have h2 : (n : Int) < 2 ^ 53 := by exact_mod_cast h
  have h3 : (2 : Int) ^ 53 < 2 ^ 63 := by norm_num
  have h4 : (0 : Int) ≤ (n : Int) := Int.ofNat_nonneg n
  have h5 : -(2 : Int) ^ 63 ≤ 0 := by norm_num
  simp only [isInt64, Bool.and_eq_true, decide_eq_true_eq]
  exact ⟨le_trans h5 h4, lt_trans h2 h3⟩

theorem skipLimit_exact
    (beyondInt64 : List Todo → JsNumber → JsNumber → Except StoreFailure (List Todo))
    (sorted : List Todo) (s L : Nat) (hL1 : 1 ≤ L) (hskip : s < 2 ^ 53) (hlim : L < 2 ^ 53) :
    skipLimit beyondInt64 sorted (.finite (s : Int)) (.finite (L : Int)) =
      .ok ((sorted.drop s).take L) := by
  have hL0 : ¬ ((L : Int) = 0) := by omega
  have hneg : ¬ ((s : Int) < 0) := by omega
  unfold skipLimit
  simp only [isInt64_of_lt _ hskip, isInt64_of_lt _ hlim, Bool.and_self, if_true]
  rw [if_neg hneg, if_neg hL0, Int.toNat_ofNat, Int.natAbs_ofNat]

theorem getTodos_ok
    (beyondInt64 : List Todo → JsNumber → JsNumber → Except StoreFailure (List Todo))
    (store : List Todo) (uid : ObjectId) (q : ListQuery) (p L : Nat)
    (hp : effectivePage q = .finite (p : Int)) (hL : effectiveLimit q = .finite (L : Int))
    (hp1 : 1 ≤ p) (hL1 : 1 ≤ L) (hskip : (p - 1) * L < 2 ^ 53) (hlim : L < 2 ^ 53) :
    getTodos beyondInt64 store uid q = .ok
      { page := .finite (p : Int)
        limit := .finite (L : Int)
        total := countDocuments store uid
        totalPages := totalPagesOf (countDocuments store uid) (.finite (L : Int))
        data := ((findSorted store uid).drop ((p - 1) * L)).take L } := by
  have hs := skipOf_exact q p L hp hL hp1 hL1 hskip
  unfold getTodos
  rw [hs, hL, hp, skipLimit_exact beyondInt64 _ _ L hL1 hskip hlim]

/-- C2: for an effective page `p ≥ 1` and limit `L ≥ 1` whose skip `(p-1)*L` and limit are
below `2^53` (where the numbers of the code are exact and the store takes them as they are),
`getTodos` answers with a listing whose `data` is the todos of the store owned by the
principal (a permutation of them, so none of another account and none missing), ordered by
creation time descending, with the first `(p-1)*L` dropped and at most `L` kept, and whose
`total` is the number of todos owned by the principal; the page holds
`min L (total - (p-1)*L)` items (truncated subtraction).  With 25 todos and limit 10, page 1
holds 10 items, page 3 holds 5, page 4 holds 0, and `totalPages` is 3 on each of them. -/
theorem getTodos_page_of_owned_todos
    (beyondInt64 : List Todo → JsNumber → JsNumber → Except StoreFailure (List Todo))
    (store : List Todo) (uid : ObjectId) (q : ListQuery)
    (p L : Nat) (hp : effectivePage q = .finite (p : Int))
    (hL : effectiveLimit q = .finite (L : Int))
    (hp1 : 1 ≤ p) (hL1 : 1 ≤ L) (hskip : (p - 1) * L < 2 ^ 53) (hlim : L < 2 ^ 53) :
    ∃ body, getTodos beyondInt64 store uid q = .ok body ∧
      body.total = (store.filter (fun t => decide (t.user = uid))).length ∧
      (∃ sorted : List Todo,
        sorted.Perm (store.filter (fun t => decide (t.user = uid))) ∧
        sorted.Sorted (fun a b => b.createdAt ≤ a.createdAt) ∧
        body.data = (sorted.drop ((p - 1) * L)).take L) ∧
      (∀ t ∈ body.data, t ∈ store ∧ t.user = uid) ∧
      body.data.length = min L (body.total - (p - 1) * L) ∧
      (body.total = 25 → L = 10 →
        body.totalPages = .finite 3 ∧ (p = 1 → body.data.length = 10) ∧
          (p = 3 → body.data.length = 5) ∧ (p = 4 → body.data.length = 0)) := by
  have hfilter : (fun t : Todo => t.user == uid) = (fun t : Todo => decide (t.user = uid)) := by
    funext t
    rfl
  have hlen : (((findSorted store uid).drop ((p - 1) * L)).take L).length =
      min L (countDocuments store uid - (p - 1) * L) := by
    rw [List.length_take, List.length_drop, length_findSorted]
  refine ⟨_, getTodos_ok beyondInt64 store uid q p L hp hL hp1 hL1 hskip hlim, ?_, ?_, ?_,
    hlen, ?_⟩
  · show countDocuments store uid = _
    unfold countDocuments
    rw [hfilter]
  · refine ⟨findSorted store uid, ?_, sorted_findSorted store uid, rfl⟩
    unfold findSorted
    rw [hfilter]
    exact List.perm_insertionSort newerFirst _
  · intro t ht
    have h1 : t ∈ findSorted store uid := List.mem_of_mem_drop (List.mem_of_mem_take ht)
    exact (mem_findSorted store uid t).mp h1
  · intro h25 h10
    have h25b : countDocuments store uid = 25 := h25
    subst h10
    refine ⟨?_, ?_, ?_, ?_⟩
    · show totalPagesOf (countDocuments store uid) (.finite ((10 : Nat) : Int)) = .finite 3
      rw [h25b]
      decide
    · intro h1
      show (((findSorted store uid).drop ((p - 1) * 10)).take 10).length = 10
      rw [hlen, h25b, h1]
      rfl
    · intro h3
      show (((findSorted store uid).drop ((p - 1) * 10)).take 10).length = 5
      rw [hlen, h25b, h3]
      rfl
    · intro h4
      show (((findSorted store uid).drop ((p - 1) * 10)).take 10).length = 0
      rw [hlen, h25b, h4]
      rfl

/-- C2, at a store of 25 todos of account 7: page 3 with limit 10 holds the 5 oldest todos. -/
theorem getTodos_page_of_owned_todos_witness :
    ∃ body, getTodos emptyBeyondInt64 (sampleTodos 7 25) 7 ⟨some "3", some "10"⟩ = .ok body ∧
      body.total = 25 ∧ body.totalPages = .finite 3 ∧ body.data.length = 5 ∧
      body.data.map (fun t => t.createdAt) = [5, 4, 3, 2, 1] := by
  obtain ⟨body, hb, _, _, _, _, _⟩ :=
    getTodos_page_of_owned_todos emptyBeyondInt64 (sampleTodos 7 25) 7 ⟨some "3", some "10"⟩
      3 10 (by decide) (by decide) (by decide) (by decide) (by norm_num) (by norm_num)
  refine ⟨body, hb, ?_⟩
  have hval : getTodos emptyBeyondInt64 (sampleTodos 7 25) 7 ⟨some "3", some "10"⟩ =
      .ok
        { page := .finite 3
          limit := .finite 10
          total := 25
          totalPages := .finite 3
          data := sampleTodos 7 5 } := by
    decide
  rw [hval] at hb
  injection hb with hb
  subst hb
  decide

theorem ceilDiv_eq_ceil (total : Nat) (limit : Int) (hl : 1 ≤ limit) :
    ceilDiv total limit = ⌈(total : ℚ) / (limit : ℚ)⌉ := by
  obtain ⟨L, rfl⟩ : ∃ L : Nat, limit = (L : Int) := ⟨limit.toNat, by omega⟩
  unfold ceilDiv
  rw [Int.fdiv_eq_ediv _ (by omega)]
  have h1 : ((total : ℚ) / ((L : Int) : ℚ)) = -(((-(total : Int) : Int) : ℚ) / (L : ℚ)) := by
    push_cast
    ring
  rw [h1, Int.ceil_neg, Rat.floor_intCast_div_natCast]

theorem getTodos_totalPages
    (beyondInt64 : List Todo → JsNumber → JsNumber → Except StoreFailure (List Todo))
    (store : List Todo) (uid : ObjectId) (q : ListQuery)
    (body : TodoPage) (h : getTodos beyondInt64 store uid q = .ok body) :
    body.totalPages = totalPagesOf (countDocuments store uid) (effectiveLimit q) := by
  unfold getTodos at h
  cases hsl : skipLimit beyondInt64 (findSorted store uid) (skipOf q) (effectiveLimit q) with
  | error e => rw [hsl] at h; cases h
  | ok todos =>
    rw [hsl] at h
    injection h with h
    rw [← h]

/-- C4: for every total and every effective limit `≥ 1`, the `totalPages` of `getTodos` is
`ceil(total / limit)` when `total > 0` and `1` when `total = 0`, and it is at least 1; every
listing `getTodos` sends carries this value, a function of the total and the limit alone
whatever the page requested; and `getTodos` does send such a listing for every effective page
`p ≥ 1` (with the skip and the limit below `2^53`, which the store takes as they are). -/
theorem totalPages_is_ceil_min_one (total : Nat) (limit : Int) (hl : 1 ≤ limit) :
    (0 < total → totalPagesOf total (.finite limit) = .finite ⌈(total : ℚ) / (limit : ℚ)⌉) ∧
      (total = 0 → totalPagesOf total (.finite limit) = .finite 1) ∧
      (∃ n : Int, totalPagesOf total (.finite limit) = .finite n ∧ 1 ≤ n) ∧
      (∀ (beyondInt64 : List Todo → JsNumber → JsNumber → Except StoreFailure (List Todo))
        (store : List Todo) (uid : ObjectId) (q : ListQuery) (body : TodoPage),
        countDocuments store uid = total → effectiveLimit q = .finite limit →
        getTodos beyondInt64 store uid q = .ok body →
        body.totalPages = totalPagesOf total (.finite limit)) ∧
      (∀ (beyondInt64 : List Todo → JsNumber → JsNumber → Except StoreFailure (List Todo))
        (store : List Todo) (uid : ObjectId) (q : ListQuery) (p : Nat),
        countDocuments store uid = total → effectiveLimit q = .finite limit →
        effectivePage q = .finite (p : Int) → 1 ≤ p → (p - 1) * limit.toNat < 2 ^ 53 →
        limit < 2 ^ 53 →
        ∃ body, getTodos beyondInt64 store uid q = .ok body ∧ body.total = total ∧
          body.totalPages = totalPagesOf total (.finite limit)) := by
  have hceil := ceilDiv_eq_ceil total limit hl
  have hl0 : limit ≠ 0 := by omega
  have hlq : (0 : ℚ) < (limit : ℚ) := by
    have : (0 : Int) < limit := by omega
    exact_mod_cast this
  have hpos : 0 < total → 1 ≤ ceilDiv total limit := by
    intro ht
    rw [hceil]
    have : (0 : ℚ) < (total : ℚ) / (limit : ℚ) := div_pos (by exact_mod_cast ht) hlq
    exact Int.one_le_ceil_iff.mpr this
  have hzero : total = 0 → ceilDiv total limit = 0 := by
    intro ht
    rw [hceil, ht]
    simp
  refine ⟨?_, ?_, ?_, ?_, ?_⟩
  · intro ht
    have := hpos ht
    have hne : ceilDiv total limit ≠ 0 := by omega
    simp [totalPagesOf, orDefault, hne, hl0, hceil.symm]
  · intro ht
    simp [totalPagesOf, orDefault, hzero ht, hl0]
  · rcases Nat.eq_zero_or_pos total with ht | ht
    · exact ⟨1, by simp [totalPagesOf, orDefault, hzero ht, hl0], le_refl 1⟩
    · have := hpos ht
      have hne : ceilDiv total limit ≠ 0 := by omega
      exact ⟨ceilDiv total limit, by simp [totalPagesOf, orDefault, hne, hl0], this⟩
  · intro beyondInt64 store uid q body hc hq hb
    rw [getTodos_totalPages beyondInt64 store uid q body hb, hc, hq]
  · intro beyondInt64 store uid q p hc hq hp hp1 hskip hlim
    obtain ⟨L, rfl⟩ : ∃ L : Nat, limit = (L : Int) := ⟨limit.toNat, by omega⟩
    have hL1 : 1 ≤ L := by omega
    have hlimN : L < 2 ^ 53 := by exact_mod_cast hlim
    rw [Int.toNat_ofNat] at hskip
    refine ⟨_, getTodos_ok beyondInt64 store uid q p L hp hq hp1 hL1 hskip hlimN, hc, ?_⟩
    show totalPagesOf (countDocuments store uid) (.finite (L : Int)) =
      totalPagesOf total (.finite (L : Int))
    rw [hc]

/-- C4, at a store of 25 todos of account 7 and limit 10: `getTodos` answers page 4 with
`totalPages` 3, the ceiling of 25/10; and an empty store has one page. -/
theorem totalPages_is_ceil_min_one_witness :
    (∃ body, getTodos emptyBeyondInt64 (sampleTodos 7 25) 7 ⟨some "4", some "10"⟩ = .ok body ∧
        body.total = 25 ∧ body.totalPages = .finite 3) ∧
      totalPagesOf 25 (.finite 10) = .finite ⌈((25 : Nat) : ℚ) / ((10 : Int) : ℚ)⌉ ∧
      (∃ body, getTodos emptyBeyondInt64 [] 7 ⟨none, none⟩ = .ok body ∧
        body.total = 0 ∧ body.totalPages = .finite 1) := by
  refine ⟨?_, (totalPages_is_ceil_min_one 25 10 (by decide)).1 (by decide), ?_⟩
  · obtain ⟨body, hb, ht, hp⟩ :=
      (totalPages_is_ceil_min_one 25 10 (by decide)).2.2.2.2 emptyBeyondInt64
        (sampleTodos 7 25) 7 ⟨some "4", some "10"⟩ 4 (by decide) (by decide) (by decide)
        (by decide) (by decide) (by norm_num)
    exact ⟨body, hb, ht, by rw [hp]; decide⟩
  · obtain ⟨body, hb, ht, hp⟩ :=
      (totalPages_is_ceil_min_one 0 10 (by decide)).2.2.2.2 emptyBeyondInt64
        [] 7 ⟨none, none⟩ 1 (by decide) (by decide) (by decide)
        (by decide) (by decide) (by norm_num)
    exact ⟨body, hb, ht, by rw [hp]; decide⟩

/-- C3: the defaults of `getTodos` at the values the fallback covers and at a negative value:
an absent, a non-numeric and a zero page yield page 1, an absent and a zero limit yield limit
10, a positive value is used as given; a negative page or limit is used as given too, so that
`page=-3` with limit 10 gives the effective page -3 and the skip -40, which the store rejects,
and `limit=-5` gives the effective limit -5. -/
theorem getTodos_negative_page_not_defaulted :
    effectivePage ⟨none, none⟩ = .finite 1 ∧ effectivePage ⟨some "abc", none⟩ = .finite 1 ∧
      effectivePage ⟨some "0", none⟩ = .finite 1 ∧ effectiveLimit ⟨none, none⟩ = .finite 10 ∧
      effectiveLimit ⟨none, some "0"⟩ = .finite 10 ∧
      effectivePage ⟨some "4", some "25"⟩ = .finite 4 ∧
      effectiveLimit ⟨some "4", some "25"⟩ = .finite 25 ∧
      effectivePage ⟨some "-3", some "10"⟩ = .finite (-3) ∧
      skipOf ⟨some "-3", some "10"⟩ = .finite (-40) ∧
      (∀ beyondInt64 : List Todo → JsNumber → JsNumber → Except StoreFailure (List Todo),
        getTodos beyondInt64 sampleStore 1 ⟨some "-3", some "10"⟩ =
          .error (.negativeSkip (-40))) ∧
      effectiveLimit ⟨none, some "-5"⟩ = .finite (-5) := by
  refine ⟨by decide, by decide, by decide, by decide, by decide, by decide, by decide,
    by decide, by decide, fun _ => rfl, by decide⟩

/-! ## Auth middleware -/

theorem startsWithBearer_iff (header : String) :
    startsWithBearer header = true ↔ ∃ rest : String, header = "Bearer " ++ rest := by
  unfold startsWithBearer
  rw [List.isPrefixOf_iff_prefix]
  constructor
  · rintro ⟨t, ht⟩
    refine ⟨String.mk t, ?_⟩
    apply String.ext
    rw [String.data_append]
    exact ht.symm
  · rintro ⟨rest, rfl⟩
    exact ⟨rest.data, (String.data_append "Bearer " rest).symm⟩

theorem head_splitChars (sep : Char) (cs : List Char) :
    ∃ pieces, splitChars sep cs = cs.takeWhile (fun c => c != sep) :: pieces := by
  induction cs with
  | nil => exact ⟨[], rfl⟩
  | cons c cs ih =>
    obtain ⟨pieces, hp⟩ := ih
    by_cases hc : c = sep
    · exact ⟨splitChars sep cs, by simp [splitChars, hc]⟩
    · exact ⟨pieces, by simp [splitChars, hc, hp]⟩

theorem bearerToken_append (rest : String) :
    bearerToken ("Bearer " ++ rest) =
      some (String.mk (rest.toList.takeWhile (fun c => c != Char.ofNat 32))) := by
  obtain ⟨pieces, hp⟩ := head_splitChars (Char.ofNat 32) rest.toList
  have hsplit : splitChars (Char.ofNat 32) ("Bearer " ++ rest).toList =
      "Bearer".toList :: splitChars (Char.ofNat 32) rest.toList := by
    rw [String.toList, String.data_append]
    obtain ⟨q, hq⟩ : ∃ q, splitChars (Char.ofNat 32) rest.data = q := ⟨_, rfl⟩
    show splitChars (Char.ofNat 32)
      (Char.ofNat 66 :: Char.ofNat 101 :: Char.ofNat 97 :: Char.ofNat 114 :: Char.ofNat 101 ::
        Char.ofNat 114 :: Char.ofNat 32 :: rest.data) = _
    have hne : ∀ n : Nat, n ∈ [66, 101, 97, 114] → (Char.ofNat n = Char.ofNat 32) = False := by
      intro n hn
      simp only [List.mem_cons, List.mem_singleton, List.not_mem_nil, or_false] at hn
      rcases hn with rfl | rfl | rfl | rfl <;> decide
    simp only [splitChars, hne 66 (by decide), hne 101 (by decide), hne 97 (by decide),
      hne 114 (by decide), if_false, if_true]
    rfl
  unfold bearerToken
  rw [hsplit, hp]
  simp

theorem findById_some (users : List User) (id : ObjectId) (u : User)
    (h : findById users id = some u) : u ∈ users ∧ u._id = id := by
  unfold findById at h
  refine ⟨List.mem_of_find?_eq_some h, ?_⟩
  have := List.find?_some h
  simpa using this

theorem findById_none (users : List User) (id : ObjectId) :
    findById users id = none ↔ ∀ u ∈ users, u._id ≠ id := by
  unfold findById
  simp

theorem auth_bearer (jwtVerify : String → Except JwtFailure ObjectId) (users : List User)
    (rest : String) :
    auth jwtVerify users (some ("Bearer " ++ rest)) =
      match jwtVerify (String.mk (rest.toList.takeWhile (fun c => c != Char.ofNat 32))) with
      | .error _ => .respond ⟨401, .message "Invalid or expired token"⟩
      | .ok id =>
        match findById users id with
        | none => .respond ⟨401, .message "User not found"⟩
        | some u => .next (withoutPassword u) := by
  have hs : startsWithBearer ("Bearer " ++ rest) = true :=
    (startsWithBearer_iff _).mpr ⟨rest, rfl⟩
  have hne : ("Bearer " ++ rest = "") = False := by
    simp only [eq_iff_iff, iff_false]
    intro h
    have := congrArg String.length h
    rw [String.length_append] at this
    have h7 : "Bearer ".length = 7 := by decide
    have h0 : "".length = 0 := by decide
    omega
  simp only [auth, hs, hne, bearerToken_append]
  simp

theorem auth_not_bearer (jwtVerify : String → Except JwtFailure ObjectId) (users : List User)
    (authorization : Option String)
    (h : ∀ rest : String, authorization ≠ some ("Bearer " ++ rest)) :
    auth jwtVerify users authorization =
      .respond ⟨401, .message "Authorization token missing"⟩ := by
  cases authorization with
  | none => rfl
  | some header =>
    have hs : startsWithBearer header = false := by
      by_contra hc
      have ht : startsWithBearer header = true := by simpa using hc
      obtain ⟨rest, hr⟩ := (startsWithBearer_iff header).mp ht
      exact h rest (by rw [hr])
    simp [auth, hs]

theorem auth_cases (jwtVerify : String → Except JwtFailure ObjectId) (users : List User)
    (authorization : Option String) :
    ((∀ rest : String, authorization ≠ some ("Bearer " ++ rest)) ∧
        auth jwtVerify users authorization =
          .respond ⟨401, .message "Authorization token missing"⟩) ∨
      (∃ rest e, authorization = some ("Bearer " ++ rest) ∧
        jwtVerify (String.mk (rest.toList.takeWhile (fun c => c != Char.ofNat 32))) = .error e ∧
        auth jwtVerify users authorization =
          .respond ⟨401, .message "Invalid or expired token"⟩) ∨
      (∃ rest id, authorization = some ("Bearer " ++ rest) ∧
        jwtVerify (String.mk (rest.toList.takeWhile (fun c => c != Char.ofNat 32))) = .ok id ∧
        findById users id = none ∧
        auth jwtVerify users authorization = .respond ⟨401, .message "User not found"⟩) ∨
      (∃ rest id u, authorization = some ("Bearer " ++ rest) ∧
        jwtVerify (String.mk (rest.toList.takeWhile (fun c => c != Char.ofNat 32))) = .ok id ∧
        findById users id = some u ∧
        auth jwtVerify users authorization = .next (withoutPassword u)) := by
  by_cases hb : ∃ rest : String, authorization = some ("Bearer " ++ rest)
  · obtain ⟨rest, rfl⟩ := hb
    right
    cases hv : jwtVerify (String.mk (rest.toList.takeWhile (fun c => c != Char.ofNat 32))) with
    | error e =>
      left
      exact ⟨rest, e, rfl, hv, by rw [auth_bearer, hv]⟩
    | ok id =>
      right
      cases hf : findById users id with
      | none =>
        left
        exact ⟨rest, id, rfl, hv, hf, by rw [auth_bearer, hv]; simp only [hf]⟩
      | some u =>
        right
        exact ⟨rest, id, u, rfl, hv, hf, by rw [auth_bearer, hv]; simp only [hf]⟩
  · left
    have hno : ∀ rest : String, authorization ≠ some ("Bearer " ++ rest) :=
      fun rest h => hb ⟨rest, h⟩
    exact ⟨hno, auth_not_bearer jwtVerify users authorization hno⟩

theorem auth_fails_401 (jwtVerify : String → Except JwtFailure ObjectId) (users : List User)
    (authorization : Option String)
    (h : ∀ user, auth jwtVerify users authorization ≠ .next user) :
    ∃ text, auth jwtVerify users authorization = .respond ⟨401, .message text⟩ := by
  rcases auth_cases jwtVerify users authorization with
    ⟨_, h1⟩ | ⟨_, _, _, _, h1⟩ | ⟨_, _, _, _, _, h1⟩ | ⟨_, _, u, _, _, _, h1⟩
  · exact ⟨_, h1⟩
  · exact ⟨_, h1⟩
  · exact ⟨_, h1⟩
  · exact absurd h1 (h _)

/-- C5: the middleware `auth` calls `next()` if and only if the Authorization header is present,
starts with "Bearer ", the token after it (the characters up to the next space) verifies to an
account id, and an account with that id exists; the principal it attaches is that account
without its password.  In every other case it answers 401, and a protected route then sends
that 401 and leaves the state as it was whatever the handler is: the handler is not run. -/
theorem auth_passes_iff_verified_bearer (jwtVerify : String → Except JwtFailure ObjectId)
    (users : List User) (authorization : Option String) :
    (∀ user, auth jwtVerify users authorization = .next user ↔
        ∃ rest id u, authorization = some ("Bearer " ++ rest) ∧
          jwtVerify (String.mk (rest.toList.takeWhile (fun c => c != Char.ofNat 32))) = .ok id ∧
          findById users id = some u ∧ user = withoutPassword u) ∧
      ((∃ user, auth jwtVerify users authorization = .next user) ↔
        ∃ rest id, authorization = some ("Bearer " ++ rest) ∧
          jwtVerify (String.mk (rest.toList.takeWhile (fun c => c != Char.ofNat 32))) = .ok id ∧
          ∃ u ∈ users, u._id = id) ∧
      (∀ user, auth jwtVerify users authorization = .next user →
        ∃ u ∈ users, user._id = u._id ∧ user.name = u.name ∧ user.email = u.email) ∧
      ((∀ user, auth jwtVerify users authorization ≠ .next user) →
        ∃ text, auth jwtVerify users authorization = .respond ⟨401, .message text⟩) ∧
      (∀ (σ : Type) (handler : PublicUser → σ → Response × σ) (st : σ),
        (∀ user, auth jwtVerify users authorization ≠ .next user) →
        ∃ text, protectedRoute jwtVerify users handler authorization st =
          (⟨401, .message text⟩, st)) := by
  have hiff : ∀ user, auth jwtVerify users authorization = .next user ↔
      ∃ rest id u, authorization = some ("Bearer " ++ rest) ∧
        jwtVerify (String.mk (rest.toList.takeWhile (fun c => c != Char.ofNat 32))) = .ok id ∧
        findById users id = some u ∧ user = withoutPassword u := by
    intro user
    constructor
    · intro h
      rcases auth_cases jwtVerify users authorization with
        ⟨_, h1⟩ | ⟨_, _, _, _, h1⟩ | ⟨_, _, _, _, _, h1⟩ | ⟨rest, id, u, ha, hv, hf, h1⟩
      · rw [h1] at h; cases h
      · rw [h1] at h; cases h
      · rw [h1] at h; cases h
      · rw [h1] at h
        injection h with h
        exact ⟨rest, id, u, ha, hv, hf, h.symm⟩
    · rintro ⟨rest, id, u, rfl, hv, hf, rfl⟩
      rw [auth_bearer, hv]
      simp only [hf]
  refine ⟨hiff, ?_, ?_, auth_fails_401 jwtVerify users authorization, ?_⟩
  · constructor
    · rintro ⟨user, h⟩
      obtain ⟨rest, id, u, ha, hv, hf, _⟩ := (hiff user).mp h
      exact ⟨rest, id, ha, hv, u, findById_some users id u hf⟩
    · rintro ⟨rest, id, ha, hv, u, hu, hid⟩
      cases hf : findById users id with
      | none => exact absurd hid ((findById_none users id).mp hf u hu)
      | some w => exact ⟨withoutPassword w, (hiff _).mpr ⟨rest, id, w, ha, hv, hf, rfl⟩⟩
  · intro user h
    obtain ⟨rest, id, u, _, _, hf, hu⟩ := (hiff user).mp h
    exact ⟨u, (findById_some users id u hf).1, by rw [hu]; exact ⟨rfl, rfl, rfl⟩⟩
  · intro σ handler st h
    obtain ⟨text, ht⟩ := auth_fails_401 jwtVerify users authorization h
    exact ⟨text, by simp only [protectedRoute, ht]⟩

/-- C5, with a verifier accepting the token "good" for account 1: the header "Bearer good"
passes with the account's public fields, and a request without header gets 401 from a
protected route whose handler would delete every todo. -/
theorem auth_passes_iff_verified_bearer_witness :
    auth (fun t => if t = "good" then .ok 1 else .error .invalid)
        [⟨1, "Alice", "a@x.com", "hash"⟩] (some "Bearer good") =
        .next ⟨1, "Alice", "a@x.com"⟩ ∧
      ∃ text, protectedRoute (fun t => if t = "good" then .ok 1 else .error .invalid)
        [⟨1, "Alice", "a@x.com", "hash"⟩] (fun _ _ => (⟨204, .empty⟩, ([] : List Todo))) none
        sampleStore = (⟨401, .message text⟩, sampleStore) :=
  ⟨by decide,
    (auth_passes_iff_verified_bearer (fun t => if t = "good" then .ok 1 else .error .invalid)
      [⟨1, "Alice", "a@x.com", "hash"⟩] none).2.2.2.2 (List Todo)
      (fun _ _ => (⟨204, .empty⟩, ([] : List Todo))) sampleStore
      (fun user h => by cases h)⟩

/-- C6, as stated, fails: three requests that all fail authentication (no header, a token
that does not verify, a token of an account that no longer exists) get three different
response bodies. -/
theorem auth_failure_bodies_differ :
    auth (fun _ => .error .invalid) [] none =
        .respond ⟨401, .message "Authorization token missing"⟩ ∧
      auth (fun _ => .error .invalid) [] (some "Bearer stale") =
        .respond ⟨401, .message "Invalid or expired token"⟩ ∧
      auth (fun _ => .ok 1) [] (some "Bearer stale") =
        .respond ⟨401, .message "User not found"⟩ ∧
      Body.message "Authorization token missing" ≠ Body.message "Invalid or expired token" ∧
      Body.message "Invalid or expired token" ≠ Body.message "User not found" ∧
      Body.message "Authorization token missing" ≠ Body.message "User not found" := by
  refine ⟨by decide, by decide, by decide, by decide, by decide, by decide⟩

/-- C6, amended: every identity failure of `auth` is answered with status 401, with one of
three messages: "Authorization token missing" when the header is absent or does not start
with "Bearer ", "Invalid or expired token" when the token does not verify (the same body for
an invalid and for an expired token), and "User not found" when the account of a verified
token no longer exists. -/
theorem auth_failure_is_401_with_one_of_three_messages
    (jwtVerify : String → Except JwtFailure ObjectId) (users : List User)
    (authorization : Option String) :
    (∀ r, auth jwtVerify users authorization = .respond r →
        r.status = 401 ∧
          (r.body = .message "Authorization token missing" ∨
            r.body = .message "Invalid or expired token" ∨
            r.body = .message "User not found")) ∧
      ((∀ rest : String, authorization ≠ some ("Bearer " ++ rest)) →
        auth jwtVerify users authorization =
          .respond ⟨401, .message "Authorization token missing"⟩) ∧
      (∀ (rest : String) (e : JwtFailure), authorization = some ("Bearer " ++ rest) →
        jwtVerify (String.mk (rest.toList.takeWhile (fun c => c != Char.ofNat 32))) = .error e →
        auth jwtVerify users authorization =
          .respond ⟨401, .message "Invalid or expired token"⟩) ∧
      (∀ (rest : String) (id : ObjectId), authorization = some ("Bearer " ++ rest) →
        jwtVerify (String.mk (rest.toList.takeWhile (fun c => c != Char.ofNat 32))) = .ok id →
        (∀ u ∈ users, u._id ≠ id) →
        auth jwtVerify users authorization = .respond ⟨401, .message "User not found"⟩) := by
  refine ⟨?_, auth_not_bearer jwtVerify users authorization, ?_, ?_⟩
  · intro r hr
    rcases auth_cases jwtVerify users authorization with
      ⟨_, h1⟩ | ⟨_, _, _, _, h1⟩ | ⟨_, _, _, _, _, h1⟩ | ⟨_, _, u, _, _, _, h1⟩
    · rw [h1] at hr
      injection hr with hr
      subst hr
      exact ⟨rfl, Or.inl rfl⟩
    · rw [h1] at hr
      injection hr with hr
      subst hr
      exact ⟨rfl, Or.inr (Or.inl rfl)⟩
    · rw [h1] at hr
      injection hr with hr
      subst hr
      exact ⟨rfl, Or.inr (Or.inr rfl)⟩
    · rw [h1] at hr
      cases hr
  · rintro rest e rfl hv
    rw [auth_bearer, hv]
  · rintro rest id rfl hv hno
    rw [auth_bearer, hv]
    simp only [(findById_none users id).mpr hno]

/-- C6 amended, with a verifier that reports "old" as expired and anything else as invalid:
both failures get the same response. -/
theorem auth_failure_is_401_with_one_of_three_messages_witness :
    auth (fun t => if t = "old" then .error .expired else .error .invalid) []
        (some ("Bearer " ++ "old")) = .respond ⟨401, .message "Invalid or expired token"⟩ ∧
      auth (fun t => if t = "old" then .error .expired else .error .invalid) []
        (some ("Bearer " ++ "forged")) = .respond ⟨401, .message "Invalid or expired token"⟩ :=
  ⟨(auth_failure_is_401_with_one_of_three_messages
      (fun t => if t = "old" then .error .expired else .error .invalid) []
      (some ("Bearer " ++ "old"))).2.2.1 "old" .expired rfl rfl,
    (auth_failure_is_401_with_one_of_three_messages
      (fun t => if t = "old" then .error .expired else .error .invalid) []
      (some ("Bearer " ++ "forged"))).2.2.1 "forged" .invalid rfl rfl⟩

/-! ## Error handler -/

/-- C7, as stated, fails: an error without `statusCode` gets status 500 but its own message is
sent to the client, and an error with a `statusCode` gets that status. -/
theorem errorHandler_sends_error_message :
    errorHandler ⟨some "connect ECONNREFUSED 10.0.0.5:27017", none⟩ =
        some ⟨500, .message "connect ECONNREFUSED 10.0.0.5:27017"⟩ ∧
      errorHandler ⟨some "E11000 duplicate key error", none⟩ =
        some ⟨500, .message "E11000 duplicate key error"⟩ ∧
      errorHandler ⟨some "request entity too large", some 413⟩ =
        some ⟨413, .message "request entity too large"⟩ ∧
      errorHandler ⟨some "connect ECONNREFUSED 10.0.0.5:27017", none⟩ ≠
        errorHandler ⟨some "E11000 duplicate key error", none⟩ := by
  refine ⟨by decide, by decide, by decide, by decide⟩

/-- C7, amended: for every error passed to `errorHandler` whose `statusCode` is absent, zero or
a status from 200 to 999 that carries a body (not 204, 205 or 304), a response is sent; its
status is the error's `statusCode` when that is set and not zero and 500 otherwise, and its
message is the error's own `message` when that is set and not empty and the generic
"Internal Server Error" otherwise; so an error without `statusCode` and without message gets
500 with the generic message. -/
theorem errorHandler_status_and_message (err : JsError)
    (hcode : err.statusCode = none ∨ err.statusCode = some 0 ∨
      ∃ code, err.statusCode = some code ∧ 200 ≤ code ∧ code ≤ 999 ∧
        code ≠ 204 ∧ code ≠ 205 ∧ code ≠ 304) :
    ∃ r, errorHandler err = some r ∧
      (∀ code, err.statusCode = some code → code ≠ 0 → r.status = code) ∧
      ((err.statusCode = none ∨ err.statusCode = some 0) → r.status = 500) ∧
      (∀ text, err.message = some text → text ≠ "" → r.body = .message text) ∧
      ((err.message = none ∨ err.message = some "") →
        r.body = .message "Internal Server Error") := by
  have hrange : 200 ≤ statusCodeOf err ∧ statusCodeOf err ≤ 999 ∧
      statusCodeOf err ≠ 204 ∧ statusCodeOf err ≠ 304 := by
    rcases hcode with h | h | ⟨code, h, h1, h2, h3, _, h5⟩
    · simp [statusCodeOf, h]
    · simp [statusCodeOf, h]
    · have h0 : code ≠ 0 := by omega
      simp [statusCodeOf, h, h0, h1, h2, h3, h5]
  have hbody : isBodyless (statusCodeOf err) = false := by
    obtain ⟨h1, _, h3, h4⟩ := hrange
    have h5 : ¬ statusCodeOf err ≤ 199 := by omega
    simp [isBodyless, h3, h4, h5]
  have hsend : errorHandler err = some ⟨statusCodeOf err, .message (messageOf err)⟩ := by
    obtain ⟨h1, h2, _, _⟩ := hrange
    have h100 : 100 ≤ statusCodeOf err := by omega
    simp [errorHandler, h100, h2, hbody]
  refine ⟨⟨statusCodeOf err, .message (messageOf err)⟩, hsend, ?_, ?_, ?_, ?_⟩
  · intro code h hne
    simp [statusCodeOf, h, hne]
  · rintro (h | h) <;> simp [statusCodeOf, h]
  · intro text h hne
    simp [messageOf, h, hne]
  · rintro (h | h) <;> simp [messageOf, h]

/-- C7 amended, at an error without fields and at an error with both. -/
theorem errorHandler_status_and_message_witness :
    errorHandler ⟨none, none⟩ = some ⟨500, .message "Internal Server Error"⟩ ∧
      ∃ r, errorHandler ⟨some "Forbidden", some 403⟩ = some r ∧ r.status = 403 ∧
        r.body = .message "Forbidden" := by
  obtain ⟨r, hr, hs, _, hm, _⟩ :=
    errorHandler_status_and_message ⟨some "Forbidden", some 403⟩
      (Or.inr (Or.inr ⟨403, rfl, by decide, by decide, by decide, by decide, by decide⟩))
  exact ⟨by decide, r, hr, hs 403 rfl (by decide), hm "Forbidden" rfl (by decide)⟩

/-! ## Register -/

theorem register_missing_field (env : AccountEnv) (users : List User) (body : RegisterBody)
    (h : body.name = none ∨ body.name = some "" ∨ body.email = none ∨ body.email = some "" ∨
      body.password = none ∨ body.password = some "") :
    register env users body =
      (.ok ⟨400, .message "Name, email and password are required"⟩, users) := by
  obtain ⟨name, email, password⟩ := body
  cases name <;> cases email <;> cases password <;> simp_all [register]
  intro h1 h2 h3
  rcases h with h | h | h
  · exact absurd h h1
  · exact absurd h h2
  · exact absurd h h3

theorem findOneByEmail_some_iff (env : AccountEnv) (users : List User) (email : String) :
    (∃ u, findOneByEmail env users email = some u) ↔
      ∃ u ∈ users, u.email = env.normalizeEmail email := by
  unfold findOneByEmail
  constructor
  · rintro ⟨u, hu⟩
    exact ⟨u, List.mem_of_find?_eq_some hu, by simpa using List.find?_some hu⟩
  · rintro ⟨u, hu, he⟩
    cases hf : users.find? (fun u => u.email == env.normalizeEmail email) with
    | some w => exact ⟨w, rfl⟩
    | none =>
      rw [List.find?_eq_none] at hf
      have := hf u hu
      simp [he] at this

theorem register_taken (env : AccountEnv) (users : List User) (name email password : String)
    (hname : name ≠ "") (hemail : email ≠ "") (hpw : password ≠ "")
    (htaken : ∃ u ∈ users, u.email = env.normalizeEmail email) :
    register env users ⟨some name, some email, some password⟩ =
      (.ok ⟨400, .message "Email already in use"⟩, users) := by
  obtain ⟨u, hu⟩ := (findOneByEmail_some_iff env users email).mpr htaken
  simp [register, hname, hemail, hpw, hu]

theorem register_store_cases (env : AccountEnv) (users : List User) (body : RegisterBody) :
    (register env users body).2 = users ∨
      ∃ name email password user, body = ⟨some name, some email, some password⟩ ∧
        (∀ u ∈ users, u.email ≠ env.normalizeEmail email) ∧
        user.email = env.normalizeEmail email ∧
        register env users body =
          (.ok ⟨201, .session (env.sign user._id) (withoutPassword user)⟩, users ++ [user]) := by
  obtain ⟨name, email, password⟩ := body
  cases name with
  | none => left; simp [register]
  | some name =>
  cases email with
  | none => left; simp [register]
  | some email =>
  cases password with
  | none => left; simp [register]
  | some password =>
    by_cases hempty : name = "" ∨ email = "" ∨ password = ""
    · left
      rw [register_missing_field env users _ (by
        rcases hempty with h | h | h
        · exact Or.inr (Or.inl (by rw [h]))
        · exact Or.inr (Or.inr (Or.inr (Or.inl (by rw [h]))))
        · exact Or.inr (Or.inr (Or.inr (Or.inr (Or.inr (by rw [h]))))))]
    · have hname : name ≠ "" := fun h => hempty (Or.inl h)
      have hemail : email ≠ "" := fun h => hempty (Or.inr (Or.inl h))
      have hpw : password ≠ "" := fun h => hempty (Or.inr (Or.inr h))
      by_cases htaken : ∃ u ∈ users, u.email = env.normalizeEmail email
      · left
        rw [register_taken env users name email password hname hemail hpw htaken]
      · have hfree : ∀ u ∈ users, u.email ≠ env.normalizeEmail email :=
          fun u hu he => htaken ⟨u, hu, he⟩
        have hnone : findOneByEmail env users email = none := by
          cases hf : findOneByEmail env users email with
          | none => rfl
          | some w =>
            exact absurd ((findOneByEmail_some_iff env users email).mp ⟨w, hf⟩) htaken
        have hany : users.any (fun u => u.email == env.normalizeEmail email) = false := by
          rw [List.any_eq_false]
          intro u hu
          simpa using hfree u hu
        by_cases hvalid : env.validate name email password = true
        · right
          refine ⟨name, email, password,
            ⟨env.freshId users, name, env.normalizeEmail email, env.hashPassword password⟩,
            rfl, hfree, rfl, ?_⟩
          simp [register, hname, hemail, hpw, hnone, userCreate, hvalid, hany]
        · left
          have hv : env.validate name email password = false := by simpa using hvalid
          simp [register, hname, hemail, hpw, hnone, userCreate, hv]

theorem register_keeps_taken (env : AccountEnv) (users : List User) (body : RegisterBody)
    (email : String) (h : ∃ u ∈ users, u.email = env.normalizeEmail email) :
    ∃ u ∈ (register env users body).2, u.email = env.normalizeEmail email := by
  obtain ⟨u, hu, he⟩ := h
  rcases register_store_cases env users body with h1 | ⟨_, _, _, user, _, _, _, h1⟩
  · rw [h1]
    exact ⟨u, hu, he⟩
  · rw [h1]
    exact ⟨u, List.mem_append_left _ hu, he⟩

theorem registerAll_keeps_taken (env : AccountEnv) (bodies : List RegisterBody)
    (users : List User) (email : String)
    (h : ∃ u ∈ users, u.email = env.normalizeEmail email) :
    ∃ u ∈ registerAll env users bodies, u.email = env.normalizeEmail email := by
  induction bodies generalizing users with
  | nil => exact h
  | cons body rest ih => exact ih _ (register_keeps_taken env users body email h)

theorem register_keeps_unique (env : AccountEnv) (users : List User) (body : RegisterBody)
    (h : UniqueEmails users) : UniqueEmails (register env users body).2 := by
  rcases register_store_cases env users body with h1 | ⟨_, email, _, user, _, hfree, hu, h1⟩
  · rw [h1]
    exact h
  · rw [h1]
    unfold UniqueEmails at h ⊢
    rw [List.map_append, List.nodup_append]
    refine ⟨h, by simp, ?_⟩
    intro a ha hb
    simp only [List.map_cons, List.map_nil, List.mem_singleton] at hb
    obtain ⟨u, hmem, hue⟩ := List.mem_map.mp ha
    exact hfree u hmem (by rw [hue, hb, hu])

/-- C9: for non-empty name, email and password, once a register request with an email has
succeeded (201, the account is stored), every later register request with the same email and
any non-empty name and password, after any further register requests, answers 400
"Email already in use" with no token and leaves the accounts as they were.  A register request
with an absent or empty name, email or password answers 400 and creates no account.  Register
keeps the stored emails pairwise distinct. -/
theorem register_rejects_email_in_use (env : AccountEnv) (users : List User)
    (name email password : String) (hname : name ≠ "") (hemail : email ≠ "")
    (hpw : password ≠ "")
    (hok : ∃ token user, (register env users ⟨some name, some email, some password⟩).1 =
      .ok ⟨201, .session token user⟩) :
    (∃ u ∈ (register env users ⟨some name, some email, some password⟩).2,
        u.name = name ∧ u.email = env.normalizeEmail email) ∧
      (∀ (later : List RegisterBody) (name2 password2 : String), name2 ≠ "" → password2 ≠ "" →
        register env
            (registerAll env (register env users ⟨some name, some email, some password⟩).2 later)
            ⟨some name2, some email, some password2⟩ =
          (.ok ⟨400, .message "Email already in use"⟩,
            registerAll env (register env users ⟨some name, some email, some password⟩).2
              later)) ∧
      (∀ (users2 : List User) (body : RegisterBody),
        (body.name = none ∨ body.name = some "" ∨ body.email = none ∨ body.email = some "" ∨
          body.password = none ∨ body.password = some "") →
        register env users2 body =
          (.ok ⟨400, .message "Name, email and password are required"⟩, users2)) ∧
      (∀ (users2 : List User) (body : RegisterBody),
        UniqueEmails users2 → UniqueEmails (register env users2 body).2) := by
  have hstored : ∃ u ∈ (register env users ⟨some name, some email, some password⟩).2,
      u.name = name ∧ u.email = env.normalizeEmail email := by
    obtain ⟨token, user, hresp⟩ := hok
    by_cases htaken : ∃ u ∈ users, u.email = env.normalizeEmail email
    · rw [register_taken env users name email password hname hemail hpw htaken] at hresp
      simp at hresp
    · have hnone : findOneByEmail env users email = none := by
        cases hf : findOneByEmail env users email with
        | none => rfl
        | some w =>
          exact absurd ((findOneByEmail_some_iff env users email).mp ⟨w, hf⟩) htaken
      by_cases hvalid : env.validate name email password = true
      · have hany : users.any (fun u => u.email == env.normalizeEmail email) = false := by
          rw [List.any_eq_false]
          intro u hu
          have : u.email ≠ env.normalizeEmail email := fun he => htaken ⟨u, hu, he⟩
          simpa using this
        refine ⟨⟨env.freshId users, name, env.normalizeEmail email,
          env.hashPassword password⟩, ?_, rfl, rfl⟩
        simp [register, hname, hemail, hpw, hnone, userCreate, hvalid, hany]
      · have hv : env.validate name email password = false := by simpa using hvalid
        simp [register, hname, hemail, hpw, hnone, userCreate, hv] at hresp
  refine ⟨hstored, ?_, register_missing_field env, register_keeps_unique env⟩
  intro later name2 password2 hn2 hp2
  obtain ⟨u, hu, _, he⟩ := hstored
  exact register_taken env _ name2 email password2 hn2 hemail hp2
    (registerAll_keeps_taken env later _ email ⟨u, hu, he⟩)

/-- C9, with the example environment: Alice registers "A@x.com", Carol registers another
email, then Bob asks for "A@x.com" and is refused. -/
theorem register_rejects_email_in_use_witness :
    (register sampleEnv [] ⟨some "Alice", some "A@x.com", some "secret123"⟩).1 =
        .ok ⟨201, .session "token-1" ⟨1, "Alice", "a@x.com"⟩⟩ ∧
      register sampleEnv
          (registerAll sampleEnv
            (register sampleEnv [] ⟨some "Alice", some "A@x.com", some "secret123"⟩).2
            [⟨some "Carol", some "c@x.com", some "pw"⟩])
          ⟨some "Bob", some "A@x.com", some "hunter2"⟩ =
        (.ok ⟨400, .message "Email already in use"⟩,
          registerAll sampleEnv
            (register sampleEnv [] ⟨some "Alice", some "A@x.com", some "secret123"⟩).2
            [⟨some "Carol", some "c@x.com", some "pw"⟩]) :=
  ⟨rfl,
    (register_rejects_email_in_use sampleEnv [] "Alice" "A@x.com" "secret123" (by decide)
      (by decide) (by decide) ⟨"token-1", ⟨1, "Alice", "a@x.com"⟩, rfl⟩).2.1
      [⟨some "Carol", some "c@x.com", some "pw"⟩] "Bob" "hunter2" (by decide) (by decide)⟩

end TodoApp

